import Mathlib

/-!
A verification development for the `caddy-git` repository-synchronization
plugin.  The Go sources under `pkg/service` (configuration registry, webhook
authentication of trigger requests, the clone-or-pull update state machine,
authentication resolution, post-pull command execution and manager
provisioning) are shallowly embedded as executable Lean definitions, and the
behavioural claims about them are settled as theorems.

Conventions used throughout the embedding:
* Go byte strings (`[]byte`) are `List Nat`, each element `< 256`.
* Go `string` values stay `String`; where Go measures bytes we measure the
  UTF-8 encoding (`utf8Encode`).
* Filesystem, network and process effects are oracles passed explicitly
  (`GitWorld`, exec-outcome functions); everything else mirrors the source
  line by line.
-/

namespace CaddyGit

/-! ## Go string primitives used by the source -/

/-- `unicode.IsSpace` for the code points Go's `strings.TrimSpace` strips. -/
def goIsSpace (c : Char) : Bool :=
  c = ' ' || c = '\t' || c = '\n' || c = Char.ofNat 11 || c = Char.ofNat 12 ||
  c = '\r' || c = Char.ofNat 0x85 || c = Char.ofNat 0xA0 ||
  c = Char.ofNat 0x1680 || (0x2000 ≤ c.toNat && c.toNat ≤ 0x200A) ||
  c = Char.ofNat 0x2028 || c = Char.ofNat 0x2029 || c = Char.ofNat 0x202F ||
  c = Char.ofNat 0x205F || c = Char.ofNat 0x3000

/-- Go `strings.TrimSpace`. -/
def goTrimSpace (s : String) : String :=
  String.mk (((s.data.dropWhile goIsSpace).reverse.dropWhile goIsSpace).reverse)

/-- Go `strings.HasPrefix`. -/
def goHasPrefix (s pre : String) : Bool :=
  pre.data.isPrefixOf s.data

/-- Go `strings.HasSuffix`. -/
def goHasSuffix (s suf : String) : Bool :=
  suf.data.isSuffixOf s.data

/-- Split a character list at the first occurrence of `sep`:
`none` when `sep` does not occur, otherwise the parts before and after it. -/
def splitFirst (sep : Char) : List Char → Option (List Char × List Char)
  | [] => none
  | c :: cs =>
    if c = sep then some ([], cs)
    else
      match splitFirst sep cs with
      | none => none
      | some (a, b) => some (c :: a, b)

/-- Go `strings.SplitN(s, sep, 2)` for a single-character separator, as the
pair of parts when the separator occurs (`len(parts) == 2`), else `none`
(`len(parts) == 1`). -/
def splitN2 (s : String) (sep : Char) : Option (String × String) :=
  match splitFirst sep s.data with
  | none => none
  | some (a, b) => some (String.mk a, String.mk b)

/-- Go `strings.Contains(s, c)` for a single-character substring. -/
def goContainsChar (s : String) (c : Char) : Bool :=
  s.data.contains c

/-- UTF-8 encoding of one code point, as Go produces for `[]byte(string)`. -/
def utf8Char (c : Char) : List Nat :=
  let n := c.toNat
  if n < 0x80 then [n]
  else if n < 0x800 then [0xC0 + n / 64, 0x80 + n % 64]
  else if n < 0x10000 then
    [0xE0 + n / 4096, 0x80 + (n / 64) % 64, 0x80 + n % 64]
  else
    [0xF0 + n / 262144, 0x80 + (n / 4096) % 64, 0x80 + (n / 64) % 64,
     0x80 + n % 64]

/-- Go `[]byte(s)`: the UTF-8 bytes of a string. -/
def utf8Encode (s : String) : List Nat :=
  s.data.foldr (fun c acc => utf8Char c ++ acc) []

/-! ## SHA-256 and HMAC-SHA256 (Go `crypto/sha256`, `crypto/hmac`)

Words are `Nat` reduced mod `2 ^ 32` explicitly. -/

/-- Truncate to a 32-bit word. -/
def w32 (n : Nat) : Nat := n % 4294967296

/-- Rotate the 32-bit word `x` right by `n` positions. -/
def rotr32 (x n : Nat) : Nat :=
  w32 ((x >>> n) ||| ((x <<< (32 - n)) % 4294967296))

def shaCh (x y z : Nat) : Nat := (x &&& y) ^^^ ((x ^^^ 4294967295) &&& z)

def shaMaj (x y z : Nat) : Nat := (x &&& y) ^^^ (x &&& z) ^^^ (y &&& z)

def bigSigma0 (x : Nat) : Nat := rotr32 x 2 ^^^ rotr32 x 13 ^^^ rotr32 x 22

def bigSigma1 (x : Nat) : Nat := rotr32 x 6 ^^^ rotr32 x 11 ^^^ rotr32 x 25

def smallSigma0 (x : Nat) : Nat := rotr32 x 7 ^^^ rotr32 x 18 ^^^ (x >>> 3)

def smallSigma1 (x : Nat) : Nat := rotr32 x 17 ^^^ rotr32 x 19 ^^^ (x >>> 10)

/-- The SHA-256 round constants, in decimal. -/
def shaK : List Nat :=
  [1116352408, 1899447441, 3049323471, 3921009573, 961987163, 1508970993,
   2453635748, 2870763221, 3624381080, 310598401, 607225278, 1426881987,
   1925078388, 2162078206, 2614888103, 3248222580, 3835390401, 4022224774,
   264347078, 604807628, 770255983, 1249150122, 1555081692, 1996064986,
   2554220882, 2821834349, 2952996808, 3210313671, 3336571891, 3584528711,
   113926993, 338241895, 666307205, 773529912, 1294757372, 1396182291,
   1695183700, 1986661051, 2177026350, 2456956037, 2730485921, 2820302411,
   3259730800, 3345764771, 3516065817, 3600352804, 4094571909, 275423344,
   430227734, 506948616, 659060556, 883997877, 958139571, 1322822218,
   1537002063, 1747873779, 1955562222, 2024104815, 2227730452, 2361852424,
   2428436474, 2756734187, 3204031479, 3329325298]

/-- Big-endian bytes of a 64-bit quantity. -/
def be64 (n : Nat) : List Nat :=
  [n >>> 56 % 256, n >>> 48 % 256, n >>> 40 % 256, n >>> 32 % 256,
   n >>> 24 % 256, n >>> 16 % 256, n >>> 8 % 256, n % 256]

/-- Big-endian bytes of a 32-bit word. -/
def be32 (n : Nat) : List Nat :=
  [n >>> 24 % 256, n >>> 16 % 256, n >>> 8 % 256, n % 256]

/-- SHA-256 message padding. -/
def shaPad (msg : List Nat) : List Nat :=
  let z := (119 - msg.length % 64) % 64
  msg ++ (0x80 :: List.replicate z 0) ++ be64 (8 * msg.length)

/-- Accumulating splitter for `chunks64`: `cur` holds the bytes of the block
in progress, most recent first. -/
def chunksGo : List Nat → List Nat → List (List Nat)
  | [], cur => if cur.isEmpty then [] else [cur.reverse]
  | b :: bs, cur =>
    let cur' := b :: cur
    if cur'.length = 64 then cur'.reverse :: chunksGo bs []
    else chunksGo bs cur'

/-- Split a byte list into 64-byte blocks. -/
def chunks64 (l : List Nat) : List (List Nat) :=
  chunksGo l []

/-- Big-endian 32-bit words of a byte list. -/
def toWords : List Nat → List Nat
  | b0 :: b1 :: b2 :: b3 :: rest =>
    (((b0 * 256 + b1) * 256 + b2) * 256 + b3) :: toWords rest
  | _ => []

/-- Message-schedule extension: builds words 16..63 with the newest word at
the head of the accumulator. -/
def schedRev : Nat → List Nat → List Nat
  | 0, acc => acc
  | n + 1, acc =>
    schedRev n
      (w32 (smallSigma1 (acc.getD 1 0) + acc.getD 6 0 +
        smallSigma0 (acc.getD 14 0) + acc.getD 15 0) :: acc)

/-- The 64-word message schedule of one block. -/
def schedule (block : List Nat) : List Nat :=
  (schedRev 48 (toWords block).reverse).reverse

/-- SHA-256 working state. -/
structure Sha8 where
  a : Nat
  b : Nat
  c : Nat
  d : Nat
  e : Nat
  f : Nat
  g : Nat
  h : Nat
deriving DecidableEq, Repr

/-- The SHA-256 initial hash value, in decimal. -/
def shaH0 : Sha8 :=
  ⟨1779033703, 3144134277, 1013904242, 2773480762, 1359893119, 2600822924,
   528734635, 1541459225⟩

/-- One SHA-256 round. -/
def shaRound (st : Sha8) (wi ki : Nat) : Sha8 :=
  let t1 := w32 (st.h + bigSigma1 st.e + shaCh st.e st.f st.g + ki + wi)
  let t2 := w32 (bigSigma0 st.a + shaMaj st.a st.b st.c)
  ⟨w32 (t1 + t2), st.a, st.b, st.c, w32 (st.d + t1), st.e, st.f, st.g⟩

/-- SHA-256 compression of one 64-byte block. -/
def compressBlock (hs : Sha8) (block : List Nat) : Sha8 :=
  let st := ((schedule block).zip shaK).foldl
    (fun st p => shaRound st p.1 p.2) hs
  ⟨w32 (hs.a + st.a), w32 (hs.b + st.b), w32 (hs.c + st.c), w32 (hs.d + st.d),
   w32 (hs.e + st.e), w32 (hs.f + st.f), w32 (hs.g + st.g), w32 (hs.h + st.h)⟩

/-- SHA-256 digest (32 bytes) of a byte message. -/
def sha256 (msg : List Nat) : List Nat :=
  let hs := (chunks64 (shaPad msg)).foldl compressBlock shaH0
  be32 hs.a ++ be32 hs.b ++ be32 hs.c ++ be32 hs.d ++ be32 hs.e ++ be32 hs.f ++
    be32 hs.g ++ be32 hs.h

/-- HMAC-SHA256 (Go `hmac.New(sha256.New, key)` followed by `Write`/`Sum`). -/
def hmacSha256 (key msg : List Nat) : List Nat :=
  let k0 := if 64 < key.length then sha256 key else key
  let k := k0 ++ List.replicate (64 - k0.length) 0
  sha256 ((k.map (Nat.xor 0x5c)) ++ sha256 ((k.map (Nat.xor 0x36)) ++ msg))

/-- Lower-case hex digit. -/
def hexDigit (n : Nat) : Char :=
  if n < 10 then Char.ofNat (48 + n) else Char.ofNat (87 + n)

/-- Go `hex.EncodeToString`. -/
def bytesToHex (bs : List Nat) : String :=
  String.mk (bs.foldr (fun b acc => hexDigit (b / 16) :: hexDigit (b % 16) :: acc) [])

/-- The hex HMAC-SHA256 digest of a request body under a webhook secret,
exactly what `validateSignature` computes as `gotSig`. -/
def hmacHex (secret : String) (body : List Nat) : String :=
  bytesToHex (hmacSha256 (utf8Encode secret) body)

/-! ## Errors (`pkg/errors/config.go` and error values from `repo.go`) -/

/-- The errors the embedded service code can surface.  The named constructors
mirror `pkg/errors/config.go`; `alreadyUpToDate` stands for go-git's
`git.NoErrAlreadyUpToDate` sentinel; `otherErr` stands for any other error
value coming back from an I/O step, carrying a distinguishing tag. -/
inductive GitError where
  | repoConfigNil
  | nameEmpty
  | nameTaken (name : String)
  | addressEmpty
  | addressUnsupported (addr : String)
  | alreadyUpToDate
  | otherErr (tag : String)
deriving DecidableEq, Repr

/-! ## Configuration model (`pkg/service/config.go`) -/

/-- `AuthConfig` from `config.go`. -/
structure AuthConfig where
  Username : String := ""
  Password : String := ""
  KeyPath : String := ""
  KeyPassphrase : String := ""
  StrictHostKeyCheckingDisabled : Bool := false
deriving DecidableEq, Repr

/-- `WebhookConfig` from `config.go`. -/
structure WebhookConfig where
  Name : String := ""
  Header : String := ""
  Secret : String := ""
deriving DecidableEq, Repr

/-- `ExecConfig` from `config.go`. -/
structure ExecConfig where
  Name : String := ""
  Command : String := ""
  Args : List String := []
deriving DecidableEq, Repr

/-- `RepositoryConfig` from `config.go`.  `transport` is the unexported cached
field set by `validate`. -/
structure RepositoryConfig where
  Name : String := ""
  Address : String := ""
  BaseDir : String := ""
  Branch : String := ""
  Depth : Int := 0
  UpdateInterval : Int := 0
  Auth : Option AuthConfig := none
  Webhooks : List WebhookConfig := []
  PostPullExec : List ExecConfig := []
  transport : String := ""
deriving DecidableEq, Repr

/-- `Config` from `config.go`: the repository list plus the unexported
name-keyed map, the latter embedded as an association list. -/
structure Config where
  Repositories : List RepositoryConfig := []
  repoMap : List (String × RepositoryConfig) := []
deriving DecidableEq, Repr

/-- Go map read `m[k]`. -/
def mapLookup (m : List (String × RepositoryConfig)) (k : String) :
    Option RepositoryConfig :=
  match m.find? (fun p => p.1 = k) with
  | some p => some p.2
  | none => none

/-- `(*RepositoryConfig).validate` from `config.go`: address must be non-empty
and carry the `.git` suffix; on success the transport scheme is derived from
the address prefix and cached on the config. -/
def validate (rc : RepositoryConfig) : Except GitError RepositoryConfig :=
  if rc.Address = "" then .error .addressEmpty
  else if !goHasSuffix rc.Address ".git" then
    .error (.addressUnsupported rc.Address)
  else if goHasPrefix rc.Address "https://" || goHasPrefix rc.Address "http://" then
    .ok { rc with transport := "http" }
  else
    .ok { rc with transport := "ssh" }

/-- `(*Config).AddRepository` from `config.go`.  The Go method mutates `cfg`
in place and returns an error; here it returns the resulting registry paired
with the optional error.  A `none` argument models a nil `*RepositoryConfig`. -/
def AddRepository (cfg : Config) (rcIn : Option RepositoryConfig) :
    Config × Option GitError :=
  match rcIn with
  | none => (cfg, some .repoConfigNil)
  | some rc0 =>
    let rc := { rc0 with Name := goTrimSpace rc0.Name }
    if rc.Name = "" then (cfg, some .nameEmpty)
    else if (mapLookup cfg.repoMap rc.Name).isSome then
      (cfg, some (.nameTaken rc.Name))
    else
      match validate rc with
      | .error e => (cfg, some e)
      | .ok rc' =>
        ({ Repositories := cfg.Repositories ++ [rc'],
           repoMap := cfg.repoMap ++ [(rc'.Name, rc')] }, none)

/-! ## Authentication resolution (`pkg/service/repo.go`) -/

/-- `expandDir` from `repo.go`: home-shorthand expansion.  `home` is the
result of `os.UserHomeDir` (`none` models its error case). -/
def expandDir (home : Option String) (s : String) : String :=
  if s = "" || !goHasPrefix s "~" then s
  else
    match home with
    | none => s
    | some hd => hd ++ s.drop 1

/-- The transport credential shapes `configureAuthOptions` can produce,
mirroring go-git's `http.BasicAuth`, `ssh.PublicKeys` (as loaded from the
named file for the named user) and `ssh.Password`. -/
inductive AuthMethod where
  | basicAuth (username password : String)
  | publicKeys (user keyPath passphrase : String) (insecureHostKey : Bool)
  | sshPassword (user password : String) (insecureHostKey : Bool)
deriving DecidableEq, Repr

/-- `configureAuthOptions` from `repo.go`.  `keyLoad` is the outcome of
`ssh.NewPublicKeysFromFile` (`some e` = load failure); `home` feeds the
`expandDir` call on the key path. -/
def configureAuthOptions (cfg : RepositoryConfig) (home : Option String)
    (keyLoad : Option GitError) : Except GitError (Option AuthMethod) :=
  match cfg.Auth with
  | none => .ok none
  | some auth =>
    let keyPath := expandDir home auth.KeyPath
    if cfg.transport = "http" then
      if auth.Username ≠ "" then
        .ok (some (.basicAuth auth.Username auth.Password))
      else .ok none
    else if cfg.transport = "ssh" then
      if keyPath ≠ "" then
        let user0 :=
          if goContainsChar cfg.Address '@' then
            match splitN2 cfg.Address '@' with
            | some parts => parts.1
            | none => ""
          else if auth.Username ≠ "" then auth.Username
          else ""
        let user := if user0 = "" then "git" else user0
        match keyLoad with
        | some e => .error e
        | none =>
          .ok (some (.publicKeys user keyPath auth.KeyPassphrase
            auth.StrictHostKeyCheckingDisabled))
      else if auth.Username ≠ "" then
        .ok (some (.sshPassword auth.Username auth.Password
          auth.StrictHostKeyCheckingDisabled))
      else .ok none
    else .ok none

/-! ## The update state machine (`pkg/service/repo.go`) -/

deriving instance DecidableEq for Except

/-- Outcomes of the filesystem / network steps a single `runUpdate`
invocation performs, supplied as an oracle.  `Except GitError Bool` results
carry both the value and the possible error of the corresponding Go call. -/
structure GitWorld where
  /-- `os.Stat` outcome inside `dirExists(BaseDir)`. -/
  statBase : Except GitError Bool := .ok true
  /-- `os.MkdirAll(BaseDir, 0700)`. -/
  mkdirBase : Option GitError := none
  /-- `os.Stat` outcome inside `dirExists(repoDir)`. -/
  statRepo : Except GitError Bool := .ok true
  /-- `ssh.NewPublicKeysFromFile` outcome, used by `configureAuthOptions`. -/
  keyLoad : Option GitError := none
  /-- `git.PlainClone`. -/
  cloneRes : Option GitError := none
  /-- `filepath.Abs(repoDir)`. -/
  absRepo : Except GitError String := .ok ""
  /-- `git.PlainOpen`. -/
  openRes : Option GitError := none
  /-- `repo.Worktree()`. -/
  worktreeRes : Option GitError := none
  /-- `w.Pull(opts)`; `some .alreadyUpToDate` is `git.NoErrAlreadyUpToDate`. -/
  pullRes : Option GitError := none
  /-- `repo.Head()`. -/
  headRes : Except GitError String := .ok ""
  /-- `repo.CommitObject(ref.Hash())`. -/
  commitRes : Option GitError := none
deriving DecidableEq, Repr

/-- `dirExists` from `repo.go`: the empty path counts as existing; otherwise
the `os.Stat` outcome decides (`IsNotExist` → `(false, nil)`). -/
def dirExists (s : String) (statRes : Except GitError Bool) :
    Except GitError Bool :=
  if s = "" then .ok true else statRes

/-- `path.Join(base, name)`. -/
def pathJoin (base name : String) : String :=
  if base = "" then name else base ++ "/" ++ name

/-- `(*Repository).runUpdate` from `repo.go`, with each I/O step's outcome
read from `w`.  Returns the error `runUpdate` returns (`none` = success).
`configureCloneOptions` / `configurePullOptions` fail exactly when
`configureAuthOptions` does, which is mirrored here. -/
def runUpdate (cfg : RepositoryConfig) (home : Option String) (w : GitWorld) :
    Option GitError :=
  let baseDir := expandDir home cfg.BaseDir
  match dirExists baseDir w.statBase with
  | .error e => some e
  | .ok baseDirExists =>
    match if baseDirExists then none else w.mkdirBase with
    | some e => some e
    | none =>
      match dirExists (pathJoin baseDir cfg.Name) w.statRepo with
      | .error e => some e
      | .ok repoDirExists =>
        let cloneStep : Option GitError :=
          if repoDirExists then none
          else
            match configureAuthOptions cfg home w.keyLoad with
            | .error e => some e
            | .ok _ => w.cloneRes
        match cloneStep with
        | some e => some e
        | none =>
          match w.absRepo with
          | .error e => some e
          | .ok _ =>
            match w.openRes with
            | some e => some e
            | none =>
              match w.worktreeRes with
              | some e => some e
              | none =>
                match configureAuthOptions cfg home w.keyLoad with
                | .error e => some e
                | .ok _ =>
                  match w.pullRes with
                  | some e => if e = .alreadyUpToDate then none else some e
                  | none =>
                    match w.headRes with
                    | .error e => some e
                    | .ok _ =>
                      match w.commitRes with
                      | some e => some e
                      | none => none

/-- `(*Repository).runPostPullExec` from `repo.go`: each entry with a
non-empty `Command` is spawned in order; failures are logged and the loop
continues.  `execRun` gives each spawned command's outcome; the returned list
records every command actually spawned, in order, with its outcome. -/
def runPostPullExec (entries : List ExecConfig)
    (execRun : ExecConfig → Option GitError) :
    List (ExecConfig × Option GitError) :=
  entries.filterMap fun ent =>
    if ent.Command ≠ "" then some (ent, execRun ent) else none

/-- `(*Repository).update` from `repo.go` as observed by one caller whose
read of the `updating` flag is given: the flag short-circuits to success,
otherwise `runUpdate` runs, and on its success the post-pull commands run.
Returns `update`'s error together with the spawned post-pull commands. -/
def update (cfg : RepositoryConfig) (updating : Bool) (home : Option String)
    (w : GitWorld) (execRun : ExecConfig → Option GitError) :
    Option GitError × List (ExecConfig × Option GitError) :=
  if updating then (none, [])
  else
    match runUpdate cfg home w with
    | some e => (some e, [])
    | none =>
      if 0 < cfg.PostPullExec.length then
        (none, runPostPullExec cfg.PostPullExec execRun)
      else (none, [])

/-! ## Manager provisioning (`manager.go`, `src/unnamed/part_003`) -/

/-- Go map assignment `m[k] = v` on the association-list embedding. -/
def mapInsert (m : List (String × RepositoryConfig)) (k : String)
    (v : RepositoryConfig) : List (String × RepositoryConfig) :=
  if m.any (fun p => p.1 = k) then
    m.map (fun p => if p.1 = k then (k, v) else p)
  else m ++ [(k, v)]

/-- The provisioning loop of `NewManager`: for each config in declared order,
call `rc.validate()`, register the repository under its name, and run the
initial synchronous update (outcome given by `updateRes`, keyed by repository
name); the first error aborts the loop.  Returns the registry map. -/
def provisionRepos (updateRes : String → Option GitError) :
    List RepositoryConfig → List (String × RepositoryConfig) →
    Except GitError (List (String × RepositoryConfig))
  | [], acc => .ok acc
  | rc :: rest, acc =>
    match validate rc with
    | .error e => .error e
    | .ok rc' =>
      let acc' := mapInsert acc rc'.Name rc'
      match updateRes rc'.Name with
      | some e => .error e
      | none => provisionRepos updateRes rest acc'

/-- `NewManager` from `manager.go`, reduced to its registration and
validation behaviour: the repository registry it builds, or the error that
aborts provisioning. -/
def NewManagerGo (cfg : Config) (updateRes : String → Option GitError) :
    Except GitError (List (String × RepositoryConfig)) :=
  provisionRepos updateRes cfg.Repositories []

/-! ## Trigger endpoint (`handler.go`: `ServeHTTP`, `validateSignature`) -/

/-- An inbound trigger request as the endpoint observes it: its method, its
header map via `r.Header.Get` (returning `""` for an absent header), and its
body bytes. -/
structure HttpRequest where
  method : String := "POST"
  headerGet : String → String := fun _ => ""
  body : List Nat := []

/-- `validateSignature` from `handler.go`: guards on the supplied signature
string, then HMAC-SHA256 of the request body keyed by the webhook secret,
hex-encoded and compared.  Returns `some` error exactly when the Go function
returns a non-nil error. -/
def validateSignature (body : List Nat) (wantSig secret : String) :
    Option GitError :=
  if wantSig = "" then some (.otherErr "empty signature")
  else if (utf8Encode wantSig).length ≠ 64 then
    some (.otherErr "malformed sha256 hash")
  else if wantSig ≠ hmacHex secret body then
    some (.otherErr "signature mismatch")
  else none

/-- The per-webhook `switch webhook.Header` body of `ServeHTTP`, given the
non-empty header value `hdr` found on the request: computes the `authFailed`
flag.  Note the faithful slip from the source: `hdrParts[0] != "sha256"` only
assigns the failure message, not the `authFailed` flag. -/
def webhookAuthFailed (req : HttpRequest) (w : WebhookConfig) (hdr : String) :
    Bool :=
  if w.Header = "X-Hub-Signature-256" || w.Header = "X-HUB-SIGNATURE-256" then
    if req.method ≠ "POST" then true
    else
      match splitN2 hdr '=' with
      | none => true
      | some parts =>
        (validateSignature req.body (goTrimSpace parts.2) w.Secret).isSome
  else hdr ≠ w.Secret

/-- Result of the webhook inspection loop in `ServeHTTP`. -/
inductive AuthOutcome where
  | authorized
  | unauthorized
deriving DecidableEq, Repr

/-- The webhook inspection loop of `ServeHTTP`: webhooks whose header is
absent from the request are skipped; the first present header is checked and
decides the outcome; if no configured header is present the request is
unauthorized. -/
def checkWebhooks (req : HttpRequest) : List WebhookConfig → AuthOutcome
  | [] => .unauthorized
  | w :: rest =>
    let hdr := req.headerGet w.Header
    if hdr = "" then checkWebhooks req rest
    else if webhookAuthFailed req w hdr then .unauthorized
    else .authorized

/-- What the endpoint did with a request: the `status_code` it responded
with, and whether it invoked `repo.update()`. -/
structure ServeOutcome where
  status : Nat
  updateCalled : Bool
deriving DecidableEq, Repr

/-- `ServeHTTP` from `handler.go` for a request addressed to a repository:
`repoFound` is the registry lookup outcome, `webhooks` the repository's
configured webhooks, `updateRes` the outcome `repo.update()` would return. -/
def serveHTTP (repoFound : Bool) (webhooks : List WebhookConfig)
    (req : HttpRequest) (updateRes : Option GitError) : ServeOutcome :=
  if !repoFound then ⟨500, false⟩
  else
    let proceed : Bool :=
      if 0 < webhooks.length then
        match checkWebhooks req webhooks with
        | .unauthorized => false
        | .authorized => true
      else true
    if !proceed then ⟨401, false⟩
    else
      match updateRes with
      | some _ => ⟨500, true⟩
      | none => ⟨200, true⟩

/-- A single webhook's check in isolation, as the spec reads it: the
webhook's header is present on the request and its value passes that
webhook's check.  Used to state the any-one-of-them claim. -/
def passesWebhook (req : HttpRequest) (w : WebhookConfig) : Bool :=
  req.headerGet w.Header ≠ "" && !webhookAuthFailed req w (req.headerGet w.Header)

/-! ## Concurrency model for `(*Repository).update` re-entry

Two callers run the entry sequence of `update` concurrently:
check the `updating` flag (before taking the lock — as in the source),
acquire the mutex, set the flag, perform the clone/pull I/O, clear the flag
(the first deferred function), release the mutex (the second deferred
function).  A scheduler interleaves single steps of the two threads. -/

/-- Program counter of one caller of `update`. -/
inductive UpdPC where
  | checkFlag
  | acquire
  | setFlag
  | doPull
  | clearFlag
  | release
  | doneSkipped
  | doneRan
deriving DecidableEq, Repr

/-- Shared and per-thread state of two concurrent `update` callers.
`t = false` is thread 0, `t = true` is thread 1; `ioN` records whether
thread `N` has performed its clone/pull I/O. -/
structure UpdState where
  updating : Bool
  lockHeld : Option Bool
  pc0 : UpdPC
  pc1 : UpdPC
  io0 : Bool
  io1 : Bool
deriving DecidableEq, Repr

deriving instance Fintype for UpdPC

deriving instance Fintype for UpdState

/-- Both callers at the entry of `update`, flag clear, lock free. -/
def updInit : UpdState :=
  ⟨false, none, .checkFlag, .checkFlag, false, false⟩

def UpdState.pcOf (s : UpdState) (t : Bool) : UpdPC :=
  if t then s.pc1 else s.pc0

def UpdState.setPC (s : UpdState) (t : Bool) (p : UpdPC) : UpdState :=
  if t then { s with pc1 := p } else { s with pc0 := p }

def UpdState.recordPull (s : UpdState) (t : Bool) : UpdState :=
  if t then { s with io1 := true } else { s with io0 := true }

/-- One step of thread `t`; a thread blocked on the mutex or already finished
leaves the state unchanged. -/
def updStep (s : UpdState) (t : Bool) : UpdState :=
  match s.pcOf t with
  | .checkFlag =>
    if s.updating then s.setPC t .doneSkipped else s.setPC t .acquire
  | .acquire =>
    match s.lockHeld with
    | none => { s.setPC t .setFlag with lockHeld := some t }
    | some _ => s
  | .setFlag => { s.setPC t .doPull with updating := true }
  | .doPull => (s.recordPull t).setPC t .clearFlag
  | .clearFlag => { s.setPC t .release with updating := false }
  | .release => { s.setPC t .doneRan with lockHeld := none }
  | .doneSkipped => s
  | .doneRan => s

/-- Run a schedule (list of thread choices) from a state. -/
def updRun (sched : List Bool) (s : UpdState) : UpdState :=
  sched.foldl updStep s

/-- A thread is inside the mutex-protected critical section. -/
def inCritical (p : UpdPC) : Bool :=
  p = .setFlag || p = .doPull || p = .clearFlag || p = .release

/-- Whether a thread at program counter `p` has already performed its
clone/pull I/O. -/
def ioDoneAt (p : UpdPC) : Bool :=
  p = .clearFlag || p = .release || p = .doneRan

/-- Inductive invariant of the two-caller model: a thread in the critical
section holds the lock, and each thread's I/O flag is determined by how far
it has advanced. -/
def updInvariant (s : UpdState) : Bool :=
  (!inCritical s.pc0 || s.lockHeld = some false) &&
  (!inCritical s.pc1 || s.lockHeld = some true) &&
  s.io0 = ioDoneAt s.pc0 && s.io1 = ioDoneAt s.pc1

/-! ## Helpers and spec-side definitions used to state the claims -/

/-- Whether an `Except` result is a success. -/
def exceptIsOk {α : Type} : Except GitError α → Bool
  | .ok _ => true
  | .error _ => false

/-- The SSH user selection exactly as the claim words it: the portion of the
address before `@` when the address contains `@`, else `auth.username` when
non-empty, else the default `git`. -/
def claimedSshUser (address username : String) : String :=
  if goContainsChar address '@' then
    match splitN2 address '@' with
    | some parts => parts.1
    | none => ""
  else if username ≠ "" then username
  else "git"

/-- The SSH user selection as amended to match the source: an empty portion
before `@` falls back to the default `git` (without consulting
`auth.username`), and so does a missing `@` with an empty username. -/
def amendedSshUser (address username : String) : String :=
  if goContainsChar address '@' then
    let before :=
      match splitN2 address '@' with
      | some parts => parts.1
      | none => ""
    if before = "" then "git" else before
  else if username ≠ "" then username
  else "git"

/-! ## Concrete fixtures used by witnesses and counterexamples -/

/-- A registered repository configuration named `app`. -/
def rcApp : RepositoryConfig :=
  { Name := "app", Address := "https://h/a.git", transport := "http" }

/-- A registry already holding `app`. -/
def cfgApp : Config :=
  { Repositories := [rcApp], repoMap := [("app", rcApp)] }

/-- A configuration with an untrimmed duplicate of the registered name. -/
def rcAppDup : RepositoryConfig :=
  { Name := " app ", Address := "https://h/b.git" }

/-- A configuration with an `https` address, before validation. -/
def rcHttpA : RepositoryConfig := { Address := "https://h/a.git" }

/-- A configuration with an scp-style ssh address, before validation. -/
def rcSshA : RepositoryConfig := { Address := "git@h:a.git" }

/-- A configuration with an empty name and a valid address. -/
def rcBlankName : RepositoryConfig := { Name := "", Address := "https://h/a.git" }

/-- First of two configurations sharing the name `x`. -/
def rcX1 : RepositoryConfig := { Name := "x", Address := "https://h/b.git" }

/-- Second of two configurations sharing the name `x`. -/
def rcX2 : RepositoryConfig := { Name := "x", Address := "https://h/c.git" }

/-- A repository list with an empty name and a duplicated name, as
`NewManager` receives it (the name map unpopulated, as after JSON decoding). -/
def cfgDupNames : Config := { Repositories := [rcBlankName, rcX1, rcX2] }

/-- Two well-formed repository configurations with distinct names. -/
def cfgTwoOk : Config :=
  { Repositories := [{ Name := "a", Address := "https://h/a.git" },
                     { Name := "b", Address := "git@h:b.git" }] }

/-- An ssh-transport configuration whose address has an empty portion before
`@`, with both a username and a key path configured. -/
def authAlice : AuthConfig := { Username := "alice", KeyPath := "/k/id" }

/-- See `authAlice`: the address starts with `@`. -/
def rcAtSsh : RepositoryConfig :=
  { Name := "r", Address := "@h:a/b.git", transport := "ssh",
    Auth := some authAlice }

/-- A key-only auth block with a home-shorthand key path. -/
def authKeyOnly : AuthConfig := { KeyPath := "~/.ssh/id" }

/-- An ssh-transport configuration with a user-qualified address. -/
def rcGitAt : RepositoryConfig :=
  { Name := "r", Address := "git@h:a.git", transport := "ssh",
    Auth := some authKeyOnly }

/-- A signature-convention webhook with secret `s3cr3t`. -/
def whSig : WebhookConfig :=
  { Name := "gh", Header := "X-Hub-Signature-256", Secret := "s3cr3t" }

/-- The hex HMAC-SHA256 digest of body `hello` under secret `s3cr3t`. -/
def digestHello : String :=
  "6b23653f08c72072554e5dfef9b72efe01fcfe724a950689e991e7bd7089eb3e"

/-- A POST trigger request carrying the correct digest of its body under a
malformed `sha512=` prefix. -/
def reqSha512 : HttpRequest :=
  { method := "POST",
    headerGet := fun h =>
      if h = "X-Hub-Signature-256" then "sha512=" ++ digestHello else "",
    body := utf8Encode "hello" }

/-- A POST trigger request whose signature header value pads the correct
digest with a space after `=`, making the after-`=` portion 65 characters. -/
def reqPaddedSig : HttpRequest :=
  { method := "POST",
    headerGet := fun h =>
      if h = "X-Hub-Signature-256" then "sha256= " ++ digestHello else "",
    body := utf8Encode "hello" }

/-- A POST trigger request with a 3-character signature value. -/
def reqShortSig : HttpRequest :=
  { method := "POST",
    headerGet := fun h =>
      if h = "X-Hub-Signature-256" then "sha256=abc" else "",
    body := [] }

/-- A plain shared-secret webhook on header `X-Token-A`. -/
def whA : WebhookConfig := { Name := "a", Header := "X-Token-A", Secret := "sa" }

/-- A plain shared-secret webhook on header `X-Token-B`. -/
def whB : WebhookConfig := { Name := "b", Header := "X-Token-B", Secret := "sb" }

/-- A request carrying a wrong value for `X-Token-A` and the correct secret
for `X-Token-B`. -/
def reqTwoHeaders : HttpRequest :=
  { method := "GET",
    headerGet := fun h =>
      if h = "X-Token-A" then "wrong"
      else if h = "X-Token-B" then "sb"
      else "",
    body := [] }

/-- The schedule in which both callers pass the flag check before either
sets the flag, and then run to completion one after the other. -/
def bothRunSched : List Bool :=
  [false, true, false, false, false, false, false, true, true, true, true, true]

/-! ## Claim theorems -/

/-- C4: a `RepositoryConfig` whose trimmed name is already registered is
rejected by `AddRepository` with the duplicate-name error, and the registry
(`Repositories` and the name map) is returned exactly as it was. -/
theorem c4_duplicate_name_rejected
    (cfg : Config) (rc : RepositoryConfig)
    (hname : goTrimSpace rc.Name ≠ "")
    (hdup : (mapLookup cfg.repoMap (goTrimSpace rc.Name)).isSome = true) :
    AddRepository cfg (some rc) =
      (cfg, some (.nameTaken (goTrimSpace rc.Name))) := by
  simp only [AddRepository]
  rw [if_neg hname, if_pos hdup]

/-- Witness for C4 at a concrete registry holding the name `app`. -/
theorem c4_duplicate_name_rejected_witness :
    AddRepository cfgApp (some rcAppDup) = (cfgApp, some (.nameTaken "app")) := by
  have h := c4_duplicate_name_rejected cfgApp rcAppDup (by decide) (by decide)
  simpa using h

/-- C8: `validate` succeeds exactly when the address is non-empty and ends in
`.git`; on success the only change made to the config is the cached transport
scheme, `http` for `http(s)://` addresses and `ssh` otherwise. -/
theorem c8_validate_address (rc : RepositoryConfig) :
    (exceptIsOk (validate rc) = true ↔
      rc.Address ≠ "" ∧ goHasSuffix rc.Address ".git" = true) ∧
    (∀ rc', validate rc = .ok rc' →
      rc' = { rc with transport :=
        if goHasPrefix rc.Address "https://" || goHasPrefix rc.Address "http://"
        then "http" else "ssh" }) := by
  constructor
  · simp only [validate]
    split_ifs <;> simp_all [exceptIsOk]
  · intro rc' h
    simp only [validate] at h
    split_ifs at h with h1 h2 h3 <;> simp_all

/-- Witness for C8: a concrete `https` address validates, and the validated
scp-style address comes out with only the `ssh` transport cached. -/
theorem c8_validate_address_witness :
    exceptIsOk (validate rcHttpA) = true ∧
    ({ rcSshA with transport := "ssh" } : RepositoryConfig) =
      { rcSshA with transport :=
          if goHasPrefix rcSshA.Address "https://" ||
             goHasPrefix rcSshA.Address "http://" then "http" else "ssh" } := by
  refine ⟨(c8_validate_address rcHttpA).1.mpr ⟨by decide, by decide⟩, ?_⟩
  exact (c8_validate_address rcSshA).2 _ (by decide)

/-- The post-pull loop spawns exactly the entries with a non-empty command,
in order, whatever each spawn's outcome. -/
theorem runPostPullExec_spawned (entries : List ExecConfig)
    (execRun : ExecConfig → Option GitError) :
    (runPostPullExec entries execRun).map Prod.fst =
      entries.filter (fun ent => ent.Command ≠ "") := by
  induction entries with
  | nil => rfl
  | cons ent rest ih =>
    by_cases hc : ent.Command = "" <;>
      simp_all [runPostPullExec, List.filterMap_cons]

/-- C7: when `runUpdate` succeeds, `update` reports success and every
configured post-pull entry with a non-empty command is spawned, in order,
no matter what each spawned command's outcome is. -/
theorem c7_post_pull_failures_nonfatal
    (cfg : RepositoryConfig) (home : Option String) (w : GitWorld)
    (execRun : ExecConfig → Option GitError)
    (hrun : runUpdate cfg home w = none) :
    (update cfg false home w execRun).1 = none ∧
    (update cfg false home w execRun).2.map Prod.fst =
      cfg.PostPullExec.filter (fun ent => ent.Command ≠ "") := by
  simp only [update, hrun]
  constructor
  · simp only [Bool.false_eq_true, if_false]
    split <;> rfl
  · simp only [Bool.false_eq_true, if_false]
    split
    · exact runPostPullExec_spawned cfg.PostPullExec execRun
    · next hlen =>
      have hnil : cfg.PostPullExec = [] := by
        cases h : cfg.PostPullExec with
        | nil => rfl
        | cons a l => rw [h] at hlen; simp at hlen
      simp [hnil]

/-- `validate` never changes the configured name. -/
theorem validate_preserves_name (rc rc' : RepositoryConfig)
    (h : validate rc = .ok rc') : rc'.Name = rc.Name := by
  simp only [validate] at h
  split_ifs at h <;> cases h <;> rfl

/-- The provisioning loop succeeds exactly when, for every listed config,
`validate` succeeds and the initial update succeeds; the accumulator does
not matter. -/
theorem provisionRepos_ok_iff (updateRes : String → Option GitError)
    (l : List RepositoryConfig) :
    ∀ acc, (exceptIsOk (provisionRepos updateRes l acc) = true ↔
      ∀ rc ∈ l, exceptIsOk (validate rc) = true ∧ updateRes rc.Name = none) := by
  induction l with
  | nil => intro acc; simp [provisionRepos, exceptIsOk]
  | cons rc rest ih =>
    intro acc
    simp only [provisionRepos]
    cases hv : validate rc with
    | error e => simp [exceptIsOk, hv, List.forall_mem_cons]
    | ok rc' =>
      have hname : rc'.Name = rc.Name := validate_preserves_name rc rc' hv
      cases hu : updateRes rc'.Name with
      | some e =>
        rw [hname] at hu
        simp [exceptIsOk, hv, hname, hu, List.forall_mem_cons]
      | none =>
        rw [hname] at hu
        simp [exceptIsOk, hv, hname, hu, List.forall_mem_cons]
        exact ih (mapInsert acc rc.Name rc')

/-- C5 counterexample: a repository list containing an empty name and a
duplicated name, all addresses valid and all updates succeeding.
`NewManager` raises no error — it registers the blank name and lets the
second `x` silently overwrite the first — refuting the claim that it
re-validates name non-emptiness and uniqueness. -/
theorem c5_newmanager_skips_name_checks_cex :
    NewManagerGo cfgDupNames (fun _ => none) =
      .ok [("", { rcBlankName with transport := "http" }),
           ("x", { rcX2 with transport := "http" })] := by
  decide

/-- C5 amended: `NewManager` re-validates only the address shape (via
`validate`, in declared order) and fails provisioning exactly when some
listed config fails address validation or its initial update fails; names
are not re-checked for emptiness or uniqueness. -/
theorem c5_newmanager_amended (cfg : Config)
    (updateRes : String → Option GitError) :
    exceptIsOk (NewManagerGo cfg updateRes) = true ↔
      ∀ rc ∈ cfg.Repositories,
        exceptIsOk (validate rc) = true ∧ updateRes rc.Name = none :=
  provisionRepos_ok_iff updateRes cfg.Repositories []

/-- Witness for C5 amended at a concrete two-repository configuration. -/
theorem c5_newmanager_amended_witness :
    exceptIsOk (NewManagerGo cfgTwoOk (fun _ => none)) = true :=
  (c5_newmanager_amended cfgTwoOk (fun _ => none)).mpr (by decide)

/-- C6: with every step before the pull succeeding, a pull that reports
`NoErrAlreadyUpToDate` makes `update` succeed, while any other pull error is
returned to the caller unchanged. -/
theorem c6_pull_up_to_date
    (cfg : RepositoryConfig) (home : Option String) (w : GitWorld)
    (execRun : ExecConfig → Option GitError) (be re : Bool)
    (hbase : dirExists (expandDir home cfg.BaseDir) w.statBase = .ok be)
    (hmk : be = false → w.mkdirBase = none)
    (hrepo : dirExists (pathJoin (expandDir home cfg.BaseDir) cfg.Name)
      w.statRepo = .ok re)
    (hauth : exceptIsOk (configureAuthOptions cfg home w.keyLoad) = true)
    (hclone : re = false → w.cloneRes = none)
    (habs : exceptIsOk w.absRepo = true)
    (hopen : w.openRes = none) (hwt : w.worktreeRes = none) :
    (w.pullRes = some .alreadyUpToDate →
      (update cfg false home w execRun).1 = none) ∧
    (∀ e, w.pullRes = some e → e ≠ .alreadyUpToDate →
      (update cfg false home w execRun).1 = some e) := by
  obtain ⟨am, ham⟩ : ∃ am, configureAuthOptions cfg home w.keyLoad = .ok am := by
    cases h : configureAuthOptions cfg home w.keyLoad with
    | error e => rw [h] at hauth; simp [exceptIsOk] at hauth
    | ok am => exact ⟨am, rfl⟩
  obtain ⟨ap, hap⟩ : ∃ ap, w.absRepo = .ok ap := by
    cases h : w.absRepo with
    | error e => rw [h] at habs; simp [exceptIsOk] at habs
    | ok ap => exact ⟨ap, rfl⟩
  have key : runUpdate cfg home w =
      (match w.pullRes with
       | some e => if e = .alreadyUpToDate then none else some e
       | none =>
         match w.headRes with
         | .error e => some e
         | .ok _ =>
           match w.commitRes with
           | some e => some e
           | none => none) := by
    simp only [runUpdate, hbase, hrepo, ham, hap, hopen, hwt]
    cases be with
    | false => cases re with
      | false => simp [hmk rfl, hclone rfl]
      | true => simp [hmk rfl]
    | true => cases re with
      | false => simp [hclone rfl]
      | true => simp
  constructor
  · intro hp
    have hru : runUpdate cfg home w = none := by rw [key, hp]; simp
    simp only [update, hru, Bool.false_eq_true, if_false]
    split <;> rfl
  · intro e hp hne
    have hru : runUpdate cfg home w = some e := by rw [key, hp]; simp [hne]
    simp [update, hru]

/-- Witness for C6: a world whose pull is `NoErrAlreadyUpToDate` yields
success; one whose pull fails otherwise returns that error. -/
theorem c6_pull_up_to_date_witness :
    (update {} false none { pullRes := some .alreadyUpToDate }
      (fun _ => none)).1 = none ∧
    (update {} false none { pullRes := some (.otherErr "network down") }
      (fun _ => none)).1 = some (.otherErr "network down") := by
  refine ⟨(c6_pull_up_to_date {} none
    { pullRes := some .alreadyUpToDate } (fun _ => none) true true
    rfl (by intro h; cases h) rfl (by decide) (by intro h; cases h)
    (by decide) rfl rfl).1 rfl, ?_⟩
  exact (c6_pull_up_to_date {} none
    { pullRes := some (.otherErr "network down") } (fun _ => none) true true
    rfl (by intro h; cases h) rfl (by decide) (by intro h; cases h)
    (by decide) rfl rfl).2 _ rfl (by decide)

/-- C9 counterexample: an ssh repository whose address has an empty portion
before `@` and a non-empty `auth.username`.  The claim prescribes the SSH
user `""` (the portion before `@`); the code produces the default `git`,
never consulting the username. -/
theorem c9_empty_user_before_at_cex :
    rcAtSsh.transport = "ssh" ∧ rcAtSsh.Auth = some authAlice ∧
    expandDir none authAlice.KeyPath ≠ "" ∧
    configureAuthOptions rcAtSsh none none =
      .ok (some (.publicKeys "git" "/k/id" "" false)) ∧
    claimedSshUser rcAtSsh.Address authAlice.Username = "" ∧
    ("git" : String) ≠ claimedSshUser rcAtSsh.Address authAlice.Username := by
  decide

/-- C9 amended: for an ssh-transport config with an auth block and a
non-empty expanded key path, and a loadable key, the resolver produces
key-based credentials (taking precedence over username/password), with the
SSH user chosen as the non-empty portion of the address before `@`, else
(when `@` is absent) the non-empty `auth.username`, else the default
`git` — an empty portion before `@` falls back to `git` directly. -/
theorem c9_ssh_key_auth_amended
    (rc : RepositoryConfig) (auth : AuthConfig) (home : Option String)
    (htr : rc.transport = "ssh") (hauth : rc.Auth = some auth)
    (hkey : expandDir home auth.KeyPath ≠ "") :
    configureAuthOptions rc home none =
      .ok (some (.publicKeys (amendedSshUser rc.Address auth.Username)
        (expandDir home auth.KeyPath) auth.KeyPassphrase
        auth.StrictHostKeyCheckingDisabled)) := by
  simp only [configureAuthOptions, hauth, htr]
  simp only [hkey, if_true, ite_true, if_pos trivial]
  simp [hkey]
  by_cases hc : goContainsChar rc.Address '@' = true
  · simp [amendedSshUser, hc]
  · by_cases hu : auth.Username = ""
    · simp [amendedSshUser, hc, hu]
    · simp [amendedSshUser, hc, hu]

/-- Witness for C9 amended at a user-qualified ssh address with a
home-shorthand key path. -/
theorem c9_ssh_key_auth_amended_witness :
    configureAuthOptions rcGitAt (some "/home/u") none =
      .ok (some (.publicKeys "git" "/home/u/.ssh/id" "" false)) := by
  have h := c9_ssh_key_auth_amended rcGitAt authKeyOnly (some "/home/u")
    rfl rfl (by decide)
  rw [h]
  decide

/-- Witness for C7: three configured actions, all spawns failing; `update`
still succeeds and both non-empty commands are spawned. -/
theorem c7_post_pull_failures_nonfatal_witness :
    (update { PostPullExec := [⟨"a", "/bin/a", []⟩, ⟨"b", "", []⟩,
        ⟨"c", "/bin/c", []⟩] } false none {}
        (fun ent => some (.otherErr ent.Name))).1 = none ∧
    (update { PostPullExec := [⟨"a", "/bin/a", []⟩, ⟨"b", "", []⟩,
        ⟨"c", "/bin/c", []⟩] } false none {}
        (fun ent => some (.otherErr ent.Name))).2.map Prod.fst =
      [⟨"a", "/bin/a", []⟩, ⟨"c", "/bin/c", []⟩] := by
  have h := c7_post_pull_failures_nonfatal
    { PostPullExec := [⟨"a", "/bin/a", []⟩, ⟨"b", "", []⟩, ⟨"c", "/bin/c", []⟩] }
    none {} (fun ent => some (.otherErr ent.Name)) (by decide)
  exact ⟨h.1, by rw [h.2]; decide⟩

/-- The inspection loop authorizes exactly when the first configured webhook
whose header is present on the request passes its own check. -/
theorem checkWebhooks_authorized_iff (req : HttpRequest)
    (webhooks : List WebhookConfig) :
    checkWebhooks req webhooks = .authorized ↔
      ∃ w, webhooks.find? (fun w => req.headerGet w.Header ≠ "") = some w ∧
        passesWebhook req w = true := by
  induction webhooks with
  | nil => simp [checkWebhooks]
  | cons w rest ih =>
    by_cases hh : req.headerGet w.Header = ""
    · simp [checkWebhooks, List.find?_cons, hh, ih]
    · by_cases hf : webhookAuthFailed req w (req.headerGet w.Header) = true
      · simp [checkWebhooks, List.find?_cons, hh, hf, passesWebhook]
      · simp [checkWebhooks, List.find?_cons, hh, hf, passesWebhook]

/-- C2 counterexample: two webhooks, a request with a wrong value for the
first webhook's header and a correct secret for the second.  The request
satisfies the second webhook, yet the endpoint rejects it unauthorized and
never calls update — refuting the any-one-of-them claim. -/
theorem c2_first_present_header_decides_cex :
    passesWebhook reqTwoHeaders whB = true ∧
    serveHTTP true [whA, whB] reqTwoHeaders none = ⟨401, false⟩ := by
  decide

/-- C2 amended: with webhooks configured, the request is authorized — and
only then is update invoked — exactly when the first configured webhook
whose header is present on the request passes that webhook's check. -/
theorem c2_any_webhook_amended (webhooks : List WebhookConfig)
    (req : HttpRequest) (updateRes : Option GitError)
    (hne : webhooks ≠ []) :
    (serveHTTP true webhooks req updateRes).updateCalled = true ↔
      ∃ w, webhooks.find? (fun w => req.headerGet w.Header ≠ "") = some w ∧
        passesWebhook req w = true := by
  have hiff := checkWebhooks_authorized_iff req webhooks
  have hlen : 0 < webhooks.length := by
    cases webhooks with
    | nil => exact absurd rfl hne
    | cons a l => simp
  cases hcw : checkWebhooks req webhooks with
  | unauthorized =>
    rw [hcw] at hiff
    constructor
    · intro h
      exfalso
      revert h
      simp [serveHTTP, hlen, hcw]
    · intro h
      exact absurd (hiff.mpr h) (by simp)
  | authorized =>
    rw [hcw] at hiff
    constructor
    · intro _
      exact hiff.mp rfl
    · intro _
      cases updateRes <;> simp [serveHTTP, hlen, hcw]

/-- Witness for C2 amended: a single webhook whose header is present with
the right secret authorizes and update is invoked. -/
theorem c2_any_webhook_amended_witness :
    (serveHTTP true [whB] reqTwoHeaders none).updateCalled = true :=
  (c2_any_webhook_amended [whB] reqTwoHeaders none (by simp)).mpr
    ⟨whB, by decide, by decide⟩

/-- The invariant holds initially. -/
theorem updInvariant_init : updInvariant updInit = true := by decide

/-- The invariant is preserved by every step of either thread. -/
theorem updInvariant_step (s : UpdState) (t : Bool)
    (h : updInvariant s = true) : updInvariant (updStep s t) = true := by
  revert h
  obtain ⟨u, l, p0, p1, i0, i1⟩ := s
  revert u l i0 i1 t
  cases p0 <;> cases p1 <;> decide

/-- The invariant is preserved by every schedule. -/
theorem updInvariant_run (sched : List Bool) :
    ∀ s, updInvariant s = true → updInvariant (updRun sched s) = true := by
  induction sched with
  | nil => intro s h; exact h
  | cons t ts ih => intro s h; exact ih (updStep s t) (updInvariant_step s t h)

/-- States satisfying the invariant have the guard properties: a caller that
finished at the flag check did no I/O, and the two callers are never in the
mutex-protected section together. -/
theorem updInvariant_guard (s : UpdState) (h : updInvariant s = true) :
    (s.pc0 = .doneSkipped → s.io0 = false) ∧
    (s.pc1 = .doneSkipped → s.io1 = false) ∧
    ¬(inCritical s.pc0 = true ∧ inCritical s.pc1 = true) := by
  revert h
  obtain ⟨u, l, p0, p1, i0, i1⟩ := s
  revert u l i0 i1
  cases p0 <;> cases p1 <;> decide

/-- C3 counterexample: the schedule in which both callers pass the
`updating` flag check before either sets it.  Both callers run to
completion and both perform the clone/pull I/O — refuting the claim that
exactly one of two concurrent calls performs I/O. -/
theorem c3_both_callers_perform_io_cex :
    updRun bothRunSched updInit =
      { updating := false, lockHeld := none, pc0 := .doneRan, pc1 := .doneRan,
        io0 := true, io1 := true } := by
  decide

/-- C3 amended: a concurrent `update` call that observes the in-flight flag
returns immediately without performing any I/O, and callers that proceed are
serialized by the mutex (never inside the critical section together); but
because the flag is checked before the lock is taken, some interleavings
let both concurrent calls perform the clone/pull I/O. -/
theorem c3_update_guard_amended :
    (∀ sched : List Bool,
      ((updRun sched updInit).pc0 = .doneSkipped →
        (updRun sched updInit).io0 = false) ∧
      ((updRun sched updInit).pc1 = .doneSkipped →
        (updRun sched updInit).io1 = false) ∧
      ¬(inCritical (updRun sched updInit).pc0 = true ∧
        inCritical (updRun sched updInit).pc1 = true)) ∧
    (∃ sched : List Bool,
      (updRun sched updInit).io0 = true ∧ (updRun sched updInit).io1 = true) := by
  constructor
  · intro sched
    exact updInvariant_guard _ (updInvariant_run sched updInit updInvariant_init)
  · exact ⟨bothRunSched, by decide⟩

/-- Witness for C3 amended: a schedule where caller 0 observes the flag set
by caller 1 and skips; it performed no I/O, and the callers are not in the
critical section together. -/
theorem c3_update_guard_amended_witness :
    (updRun [true, true, true, false] updInit).io0 = false ∧
    ¬(inCritical (updRun [true, true, true, false] updInit).pc0 = true ∧
      inCritical (updRun [true, true, true, false] updInit).pc1 = true) := by
  have h := c3_update_guard_amended.1 [true, true, true, false]
  exact ⟨h.1 (by decide), h.2.2⟩

set_option maxRecDepth 100000 in
/-- C1, evaluated at the failing input: a POST request whose signature
header reads `sha512=<correct digest>`.  The prefix before `=` is malformed
(not `sha256`), so per the claim authentication must fail; the code's
malformed-prefix branch sets only the failure message and not the failure
flag, the digest check then passes, and the endpoint authorizes the request
and calls update, responding 200. -/
theorem c1_malformed_prefix_authorized :
    reqSha512.headerGet "X-Hub-Signature-256" = "sha512=" ++ digestHello ∧
    serveHTTP true [whSig] reqSha512 none = ⟨200, true⟩ := by
  constructor
  · decide
  · decide

set_option maxRecDepth 100000 in
/-- C10 counterexample: a POST request whose signature header value is
`sha256= <correct digest>`.  The portion after `=` is 65 characters — not
exactly 64 — so per the claim the request must be rejected without any HMAC
computation; the code trims the portion first, the 64-character trimmed
digest passes the HMAC comparison, and the endpoint authorizes the request
and calls update. -/
theorem c10_untrimmed_length_authorized_cex :
    (match splitN2 (reqPaddedSig.headerGet "X-Hub-Signature-256") '=' with
     | some parts => (utf8Encode parts.2).length
     | none => 0) = 65 ∧
    serveHTTP true [whSig] reqPaddedSig none = ⟨200, true⟩ := by
  constructor
  · decide
  · decide

/-- C10 amended: when the portion after `=` is empty or of length other
than 64 *after trimming surrounding whitespace*, `validateSignature` fails
on its leading guards for every secret and body (no HMAC is consulted) and
the endpoint rejects the request as unauthorized without calling update. -/
theorem c10_short_signature_amended
    (w : WebhookConfig) (rest : List WebhookConfig) (req : HttpRequest)
    (updateRes : Option GitError) (p0 p1 : String)
    (hw : w.Header = "X-Hub-Signature-256" ∨ w.Header = "X-HUB-SIGNATURE-256")
    (hpresent : req.headerGet w.Header ≠ "")
    (hsplit : splitN2 (req.headerGet w.Header) '=' = some (p0, p1))
    (hshort : goTrimSpace p1 = "" ∨ (utf8Encode (goTrimSpace p1)).length ≠ 64) :
    (∀ (secret : String) (body : List Nat),
      (validateSignature body (goTrimSpace p1) secret).isSome = true) ∧
    serveHTTP true (w :: rest) req updateRes = ⟨401, false⟩ := by
  have hsig : ∀ (secret : String) (body : List Nat),
      (validateSignature body (goTrimSpace p1) secret).isSome = true := by
    intro secret body
    rcases hshort with h | h
    · simp [validateSignature, h]
    · by_cases hz : goTrimSpace p1 = "" <;> simp [validateSignature, hz, h]
  refine ⟨hsig, ?_⟩
  have hfail : webhookAuthFailed req w (req.headerGet w.Header) = true := by
    simp only [webhookAuthFailed]
    have hcond :
        (w.Header = "X-Hub-Signature-256" ||
          w.Header = "X-HUB-SIGNATURE-256") = true := by
      rcases hw with h | h <;> simp [h]
    rw [if_pos hcond]
    by_cases hm : req.method = "POST"
    · rw [if_neg (by simp [hm]), hsplit]
      exact hsig w.Secret req.body
    · simp [hm]
  simp [serveHTTP, checkWebhooks, hpresent, hfail]

/-- Witness for C10 amended at a 3-character signature value. -/
theorem c10_short_signature_amended_witness :
    (validateSignature [7] (goTrimSpace "abc") "any").isSome = true ∧
    serveHTTP true [whSig] reqShortSig none = ⟨401, false⟩ := by
  have h := c10_short_signature_amended whSig [] reqShortSig none
    "sha256" "abc" (Or.inl rfl) (by decide) (by decide)
    (Or.inr (by decide))
  exact ⟨h.1 "any" [7], h.2⟩

end CaddyGit
